import Mathlib

set_option maxRecDepth 200000

/-!
Verification of the agentic RAG orchestration pipeline (FastAPI backend).

The development shallowly embeds the backend modules:

* `backend/core/tools.py` — `VectorStoreManager._chunk_text`,
  `VectorStoreManager.add_documents`, `VisionTool.analyze_image`;
* `backend/core/reasoning.py` — `IntentType`, `QueryAnalysis`,
  `ReasoningEngine.analyze_query`;
* `backend/core/synthesizer.py` — `ResponseSynthesizer.generate_response_stream`
  (prompt construction and stream-line processing);
* `backend/main.py` — the `/chat/stream` and `/ingest` endpoints.

Python strings are embedded as `List Char`; Python integers as `Int` (they are
unbounded, and the chunker manipulates possibly-negative indices); remote calls
(embedding model, chat model, vision model) are parameters of the embedded
functions; `while` and `for` loops are rendered as fuel-indexed recursion, with
`none` meaning the fuel ran out before the loop finished.
-/

/-! ## Python string primitives -/

/-- Python `str.strip()` whitespace set (the characters actually handled by
`str.isspace` that can appear in the chunker texts). -/
def pyIsSpace (c : Char) : Bool :=
  c = ' ' || c = '\n' || c = '\t' || c = '\r' || c = '\x0b' || c = '\x0c'

/-- Python `s.strip()`: drop whitespace from both ends. -/
def pyStrip (s : List Char) : List Char :=
  ((s.dropWhile pyIsSpace).reverse.dropWhile pyIsSpace).reverse

/-- Python slice-index adjustment: negative indices count from the end and the
result is clamped to `[0, n]`. -/
def pySliceIdx (n : Nat) (i : Int) : Nat :=
  (min (max (if i < 0 then (n : Int) + i else i) 0) (n : Int)).toNat

/-- Python `s[a:b]` for a character list. -/
def pySlice (s : List Char) (a b : Int) : List Char :=
  (s.take (pySliceIdx s.length b)).drop (pySliceIdx s.length a)

/-- Python `s.rfind(c, a, b)`: the largest index `p` in the adjusted range
`[a, b)` with `s[p] = c`, and `-1` when there is none. -/
def pyRfind (s : List Char) (c : Char) (a b : Int) : Int :=
  let a' := pySliceIdx s.length a
  let b' := pySliceIdx s.length b
  (s.enum.filter
    (fun pc => decide (a' ≤ pc.1) && decide (pc.1 < b') && decide (pc.2 = c))).foldl
    (fun acc pc => max acc (pc.1 : Int)) (-1)

/-- Python `re.sub(r"\n+", "\n", text)`: collapse runs of newlines. -/
def collapseNewlines : List Char → List Char
  | [] => []
  | [c] => [c]
  | c1 :: c2 :: rest =>
    if c1 = '\n' && c2 = '\n' then collapseNewlines (c2 :: rest)
    else c1 :: collapseNewlines (c2 :: rest)

/-- Python `s.split(c)` (single-character separator). -/
def pySplit (c : Char) : List Char → List (List Char)
  | [] => [[]]
  | x :: xs =>
    let r := pySplit c xs
    if x = c then [] :: r
    else
      match r with
      | [] => [[x]]
      | h :: t => (x :: h) :: t

/-! ## Chunker (`VectorStoreManager._chunk_text`, tools.py lines 25-49) -/

/-- One iteration of the `while start < text_len` body of `_chunk_text`:
from the cursor `start` compute the window end (backing off to the last space
strictly after `start` when the window ends mid-text), the stripped chunk for
this window, and the next cursor (`end - overlap`, forced to `end` when that
would not be below `end`). -/
def chunkStep (text : List Char) (chunk_size overlap : Int) (start : Int) :
    Int × List Char :=
  let e1 := start + chunk_size
  let e :=
    if e1 < (text.length : Int) then
      let last_space := pyRfind text ' ' start e1
      if last_space ≠ -1 && last_space > start then last_space else e1
    else e1
  let chunk := pyStrip (pySlice text start e)
  let s1 := e - overlap
  (if s1 ≥ e then e else s1, chunk)

/-- The `while` loop of `_chunk_text`, fuel-indexed: `none` means the loop did
not finish within `fuel` iterations.  Non-empty stripped chunks are appended
in order. -/
def chunkLoop (text : List Char) (chunk_size overlap : Int) :
    Nat → Int → List (List Char) → Option (List (List Char))
  | 0, _, _ => none
  | fuel + 1, start, acc =>
    if start < (text.length : Int) then
      let p := chunkStep text chunk_size overlap start
      chunkLoop text chunk_size overlap fuel p.1
        (if p.2 = [] then acc else acc ++ [p.2])
    else some acc

/-- `VectorStoreManager._chunk_text(text, chunk_size, overlap)`: empty input
short-circuits to `[]`; otherwise newline runs are collapsed and the windowing
loop runs from cursor `0`. -/
def chunk_text (fuel : Nat) (text : List Char) (chunk_size overlap : Int) :
    Option (List (List Char)) :=
  if text = [] then some [] else
    chunkLoop (collapseNewlines text) chunk_size overlap fuel 0 []

/-! ## Vector store ingest (`VectorStoreManager.add_documents`, tools.py lines 84-123) -/

/-- Chunk metadata: a key-value mapping, embedded as an association list.
The Python default `{}` is the empty list. -/
abbrev Meta := List (String × String)

/-- One record handed to `collection.upsert`: an id, the chunk text, the
embedding vector stored for it, and the chunk metadata. -/
structure Entry where
  id : String
  doc : List Char
  emb : List Int
  meta : Meta
deriving DecidableEq, Repr

/-- The id scheme `f"doc_{current_count + idx}_chunk_{chunk_i}"`. -/
def mkId (docSeq chunkSeq : Nat) : String :=
  "doc_" ++ toString docSeq ++ "_chunk_" ++ toString chunkSeq

/-- The first loop of `add_documents`: for each document (by position `idx`)
and each of its chunks (by position `chunk_i`), record the chunk text, the
metadata (`metadatas[idx] if idx < len(metadatas) else {}`, replicated on every
chunk of the document) and the id.  The three parallel Python lists
`all_chunks`, `all_metadatas`, `all_ids` are the three projections of this
list of triples. -/
def buildTriples (count : Nat) (metadatas : List Meta)
    (chunksPerDoc : List (List (List Char))) : List (List Char × Meta × String) :=
  chunksPerDoc.enum.flatMap fun di =>
    di.2.enum.map fun ci =>
      (ci.2,
       if di.1 < metadatas.length then metadatas.getD di.1 [] else [],
       mkId (count + di.1) ci.1)

/-- Python `l[i:e]` for `0 ≤ i ≤ e` (the only shape used by the upsert batch
loop). -/
def sliceN {α : Type} (l : List α) (i e : Nat) : List α := (l.drop i).take (e - i)

/-- The four parallel argument lists of one `collection.upsert` call, zipped
into upserted records.  The batch loop always passes four slices of equal
length. -/
def zipEntries : List String → List (List Char) → List (List Int) → List Meta →
    List Entry
  | [], _, _, _ => []
  | _ :: _, [], _, _ => []
  | _ :: _, _ :: _, [], _ => []
  | _ :: _, _ :: _, _ :: _, [] => []
  | i :: is, c :: cs, e :: es, m :: ms => ⟨i, c, e, m⟩ :: zipEntries is cs es ms

/-- The batch loop `for i in range(0, total_chunks, batch_size)` of
`add_documents` with `batch_size = 100`, rendered with an explicit iteration
budget `rem`.  Each pass upserts the slices `[i : min (i+100) total)` of the
four lists and advances `i` by `100`; since `i` grows by `100` per pass, a
budget of `total` passes is never exhausted before the loop exits. -/
def upsertLoopAux (ids : List String) (chunks : List (List Char))
    (embs : List (List Int)) (metas : List Meta) (total : Nat) :
    Nat → Nat → List Entry
  | 0, _ => []
  | rem + 1, i =>
    if i < total then
      let e := min (i + 100) total
      zipEntries (sliceN ids i e) (sliceN chunks i e) (sliceN embs i e)
          (sliceN metas i e)
        ++ upsertLoopAux ids chunks embs metas total rem (i + 100)
    else []

/-- All records handed to `collection.upsert` by the batch loop, in order. -/
def upsertBatched (ids : List String) (chunks : List (List Char))
    (embs : List (List Int)) (metas : List Meta) (total : Nat) : List Entry :=
  upsertLoopAux ids chunks embs metas total total 0

/-- The chunking of each document in turn (`chunks = self._chunk_text(doc)`
inside the first loop of `add_documents`), with the chunking fuel threaded
through: `none` when some document's chunking loop ran out of fuel. -/
def chunkDocs (fuel : Nat) : List (List Char) → Option (List (List (List Char)))
  | [] => some []
  | d :: ds =>
    match chunk_text fuel d 1000 100 with
    | none => none
    | some cs =>
      match chunkDocs fuel ds with
      | none => none
      | some rest => some (cs :: rest)

/-- The embedding loop of `add_documents`: embed every chunk in order and keep
only the successful (non-empty) vectors — `if emb: embeddings.append(emb)`. -/
def keepEmbeddings (embed : List Char → List Int)
    (all_chunks : List (List Char)) : List (List Int) :=
  (all_chunks.map embed).filter fun e => e ≠ []

/-- `VectorStoreManager.add_documents(documents, metadatas)` with the store
count and the embedding model as parameters.  `embed t = []` models the
soft-failure of `_get_embedding` (it returns `[]` on any error).  The result
is the list of records actually upserted: `some []` models the early `return`
taken when no chunk embedded successfully (the index is not touched), and
`none` means a chunking loop ran out of fuel. -/
def add_documents (fuel count : Nat) (documents : List (List Char))
    (metadatas : List Meta) (embed : List Char → List Int) :
    Option (List Entry) :=
  match chunkDocs fuel documents with
  | none => none
  | some chunksPerDoc =>
    let triples := buildTriples count metadatas chunksPerDoc
    let all_chunks := triples.map fun t => t.1
    let all_metadatas := triples.map fun t => t.2.1
    let all_ids := triples.map fun t => t.2.2
    let embeddings := keepEmbeddings embed all_chunks
    if embeddings = [] then some []
    else
      some (upsertBatched all_ids all_chunks embeddings all_metadatas
        embeddings.length)

/-- The `/ingest` endpoint (`main.py` lines 104-113): wraps the single document
and metadata into lists, awaits `add_documents`, and—whenever no exception
escapes—answers `"success"` regardless of what `add_documents` did. -/
def ingest_document (fuel count : Nat) (text_content : List Char)
    (metadata : Meta) (embed : List Char → List Int) : Option String :=
  (add_documents fuel count [text_content] [metadata] embed).map fun _ => "success"

/-! ## Vision tool (`VisionTool.analyze_image`, tools.py lines 134-154) -/

/-- The image payload actually sent to the multimodal model by
`analyze_image`: `if "," in image_base64: image_base64 = image_base64.split(",")[1]`. -/
def analyze_image_payload (image_base64 : List Char) : List Char :=
  if ',' ∈ image_base64 then (pySplit ',' image_base64).getD 1 [] else image_base64

/-! ## Reasoning stage (`reasoning.py`) -/

/-- `IntentType(str, Enum)` from reasoning.py lines 9-16.  Its members are
exactly `SEARCH`, `SUMMARIZE`, `CALCULATE`, `CHITCHAT`. -/
inductive IntentType where
  | search
  | summarize
  | calculate
  | chitchat
deriving DecidableEq, Repr

/-- The string value of each `IntentType` member. -/
def IntentType.value : IntentType → String
  | .search => "search"
  | .summarize => "summarize"
  | .calculate => "calculate"
  | .chitchat => "chitchat"

/-- Python attribute lookup `IntentType.<name>` on the enum class: `some`
member when `name` is one of the four member names, otherwise an
`AttributeError` (modelled as `none`). -/
def intentTypeAttr (name : String) : Option IntentType :=
  if name = "SEARCH" then some .search
  else if name = "SUMMARIZE" then some .summarize
  else if name = "CALCULATE" then some .calculate
  else if name = "CHITCHAT" then some .chitchat
  else none

/-- The `QueryAnalysis` pydantic model (reasoning.py lines 18-25), with its
field defaults. -/
structure QueryAnalysis where
  intent : IntentType
  key_entities : List String
  missing_info : Option String := none
  is_safe : Bool := true
deriving DecidableEq, Repr

/-- The fallback returned by the `except` arm of `analyze_query`:
`QueryAnalysis(intent=IntentType.CHITCHAT, key_entities=[])` with the field
defaults for the remaining fields. -/
def fallbackAnalysis : QueryAnalysis :=
  { intent := .chitchat, key_entities := [] }

/-- The outcome of the remote classification call as seen by `analyze_query`:
either the transport layer raised, or an HTTP response arrived with a status
code and the optional string at `result_json["message"]["content"]`. -/
inductive ChatResponse where
  | transportFailure
  | response (status : Nat) (content : Option String)
deriving DecidableEq

/-- `ReasoningEngine.analyze_query` (reasoning.py lines 47-101), abstracted
over the remote call outcome and over
`QueryAnalysis.model_validate_json` (`validateQA c = none` models both a JSON
parse failure and a schema-validation failure on body `c`).  Inside the `try`:
`raise_for_status()` raises on any non-2xx status; a missing
`message.content` defaults to the string `"\x7b\x7d"`; any raised exception is
caught and converted to `fallbackAnalysis`. -/
def analyze_query (validateQA : String → Option QueryAnalysis)
    (resp : ChatResponse) : QueryAnalysis :=
  match resp with
  | .transportFailure => fallbackAnalysis
  | .response status content =>
    if 200 ≤ status ∧ status < 300 then
      match validateQA (content.getD "\x7b\x7d") with
      | some qa => qa
      | none => fallbackAnalysis
    else fallbackAnalysis

/-! ## Synthesis stage (`synthesizer.py`) -/

/-- The system instruction of the `intent == "search"` branch of
`generate_response_stream` (synthesizer.py lines 37-43). -/
def searchSystemInstruction : String :=
  "You are a precise and helpful AI assistant. " ++
  "You have been provided with external information in the \x27Context\x27 section. " ++
  "Answer the user\x27s question based MAINLY on that context. " ++
  "If the context contains the answer, cite the source (e.g., [Source: Nvidia 2023 Report]). " ++
  "If the context does not answer the question, admit it politely."

/-- The system instruction of the fallback branch (synthesizer.py line 50). -/
def genericSystemInstruction : String :=
  "You are a helpful and friendly AI assistant."

/-- Prompt construction of `generate_response_stream` (synthesizer.py lines
36-51): the pair (system instruction, user-facing prompt).  The branch is
taken exactly when `intent == "search"` (the intent arrives as a string-valued
enum member or raw string and is compared to the literal `"search"`). -/
def buildPrompt (intent : String) (user_query tool_output : String) :
    String × String :=
  if intent = "search" then
    (searchSystemInstruction,
     "--- CONTEXT START ---\n" ++ tool_output ++ "\n--- CONTEXT END ---\n\n" ++
       "User Question: " ++ user_query)
  else
    (genericSystemInstruction, user_query)

/-- One line of the streaming response as seen by the loop body of
`generate_response_stream` (synthesizer.py lines 76-96): an empty line
(skipped before parsing), a line on which `json.loads` raises
`JSONDecodeError` (skipped by the `except` arm), or a parsed JSON unit
carrying the token `chunk_json.get("message", \x7b\x7d).get("content", "")`
and the flag `chunk_json.get("done", False)`. -/
inductive StreamLine where
  | blank
  | malformed
  | unit (token : String) (done : Bool)
deriving DecidableEq

/-- The sequence of tokens yielded by the stream loop of
`generate_response_stream` over the lines of the response body: the `done`
check precedes the token check (`if done: break` then `if token: yield`), and
exhausting the lines ends the sequence. -/
def processStream : List StreamLine → List String
  | [] => []
  | .blank :: rest => processStream rest
  | .malformed :: rest => processStream rest
  | .unit token d :: rest =>
    if d then []
    else if token ≠ "" then token :: processStream rest
    else processStream rest

/-! ## Orchestrator (`main.py` `/chat/stream`, lines 62-102) -/

/-- Python truthiness of the optional `image_data` field: `None` and `""` are
falsy. -/
def pyTruthy : Option String → Bool
  | none => false
  | some s => s ≠ ""

/-- The observable outcome of the `/chat/stream` endpoint: either a streaming
response parameterized by the detected intent and the tool output handed to
the synthesizer, or an HTTP error raised from the `except` arm. -/
inductive ChatOutcome where
  | streaming (intent : IntentType) (tool_output : String)
  | httpError (status : Nat)
deriving DecidableEq, Repr

/-- The `chat_stream` endpoint body (main.py lines 62-102), abstracted over
the reasoning engine and the two tools.  Phase 1: with truthy image data the
code evaluates `IntentType.VISION_QA`; otherwise it awaits
`analyze_query` and takes its intent.  Phase 2 evaluates
`intent == IntentType.VISION_QA and image_data` — which again looks up the
attribute `VISION_QA` — then dispatches on the intent.  Any exception in the
body is caught and re-raised as `HTTPException(status_code=500)`. -/
def chat_stream (query : String) (history : List (String × String))
    (image_data : Option String)
    (analyzeFn : String → List (String × String) → QueryAnalysis)
    (searchFn : String → String) (visionFn : String → String → String) :
    ChatOutcome :=
  let phase1 : Except String IntentType :=
    if pyTruthy image_data then
      match intentTypeAttr "VISION_QA" with
      | some i => .ok i
      | none => .error "AttributeError: VISION_QA"
    else .ok (analyzeFn query history).intent
  match phase1 with
  | .error _ => .httpError 500
  | .ok intent =>
    match intentTypeAttr "VISION_QA" with
    | none => .httpError 500
    | some visionIntent =>
      let tool_output :=
        if intent = visionIntent && pyTruthy image_data then
          visionFn (image_data.getD "") query
        else if intent = IntentType.search then searchFn query
        else if intent = IntentType.calculate then
          "Calculator tool not yet implemented."
        else ""
      .streaming intent tool_output

/-! ## Helper lemmas -/

/-- `pySplit` never returns an empty list of fields. -/
theorem pySplit_ne_nil (c : Char) (l : List Char) : pySplit c l ≠ [] := by
  induction l with
  | nil => simp [pySplit]
  | cons x xs ih =>
    simp only [pySplit]
    split
    · simp
    · cases h : pySplit c xs with
      | nil => simp
      | cons hd tl => simp

/-- Splitting a list that starts with a separator-free segment `a` followed by
the separator yields `a` as its first field. -/
theorem pySplit_sep (c : Char) (a b : List Char) (ha : c ∉ a) :
    pySplit c (a ++ c :: b) = a :: pySplit c b := by
  induction a with
  | nil => simp [pySplit]
  | cons x xs ih =>
    have hx : ¬x = c := by
      intro h; exact ha (h ▸ List.mem_cons_self x xs)
    have hxs : c ∉ xs := fun h => ha (List.mem_cons_of_mem _ h)
    simp only [List.cons_append, pySplit, if_neg (fun h => hx h)]
    rw [List.append_eq, ih hxs]

/-- The first field of `pySplit` is the segment before the first separator. -/
theorem pySplit_head (c : Char) (b : List Char) :
    ∃ t, pySplit c b = b.takeWhile (fun x => x ≠ c) :: t := by
  induction b with
  | nil => exact ⟨[], rfl⟩
  | cons x xs ih =>
    by_cases hx : x = c
    · subst hx
      refine ⟨pySplit x xs, ?_⟩
      simp [pySplit, List.takeWhile]
    · obtain ⟨t, ht⟩ := ih
      refine ⟨t, ?_⟩
      simp only [pySplit, if_neg hx, ht, List.takeWhile]
      simp [hx]

/-! ## Claim C9 — vision payload data-URI handling -/

/-- Claim C9 counterexample: the claim says everything after the FIRST comma is
sent unchanged, so for the payload `"a,b,c"` it predicts `"b,c"`; the code
(`image_base64.split(",")[1]`) sends only `"b"`. -/
theorem analyze_image_payload_second_comma :
    analyze_image_payload "a,b,c".toList = "b".toList ∧
    "b".toList ≠ "b,c".toList := by
  refine ⟨by decide, by decide⟩

/-- Claim C9 amended: a payload without a comma is sent as-is; a payload with a
comma is sent as exactly the segment strictly between the first comma and the
following comma (the whole remainder when there is no second comma): content
before the first comma and from the second comma onward is discarded. -/
theorem analyze_image_payload_amended :
    (∀ s : List Char, ',' ∉ s → analyze_image_payload s = s) ∧
    (∀ a b : List Char, ',' ∉ a →
      analyze_image_payload (a ++ ',' :: b) =
        b.takeWhile (fun x => x ≠ ',')) := by
  constructor
  · intro s hs
    simp [analyze_image_payload, hs]
  · intro a b ha
    have hmem : ',' ∈ a ++ ',' :: b :=
      List.mem_append_right a (List.mem_cons_self ',' b)
    obtain ⟨t, ht⟩ := pySplit_head ',' b
    simp [analyze_image_payload, hmem, pySplit_sep ',' a b ha, ht]

/-- Witness for the amended claim C9 at concrete payloads. -/
theorem analyze_image_payload_amended_witness :
    analyze_image_payload "abcd".toList = "abcd".toList ∧
    analyze_image_payload ("xy".toList ++ ',' :: "rest".toList) =
      "rest".toList.takeWhile (fun x => x ≠ ',') :=
  ⟨analyze_image_payload_amended.1 "abcd".toList (by decide),
   analyze_image_payload_amended.2 "xy".toList "rest".toList (by decide)⟩

/-! ## Claim C4 — intent-conditioned prompt construction -/

/-- Claim C4 counterexample: for the `vision_qa` intent the claim predicts the
evidence-grounded system instruction and the context-wrapped prompt; the code
branches only on `intent == "search"`, so `vision_qa` gets the generic persona
and the raw query. -/
theorem buildPrompt_vision_qa_generic :
    (buildPrompt "vision_qa" "What is in the image?" "tool evidence").1 =
      genericSystemInstruction ∧
    (buildPrompt "vision_qa" "What is in the image?" "tool evidence").2 =
      "What is in the image?" ∧
    genericSystemInstruction ≠ searchSystemInstruction := by
  refine ⟨by decide, by decide, by decide⟩

/-- Claim C4 amended: exactly for the `search` intent the synthesis prompt uses
the evidence-grounded system instruction and wraps `tool_output` in explicit
context-delimiter markers followed by the original query; for every other
intent — including `vision_qa` — the system instruction is the generic
helpful-assistant persona and the prompt is the raw query. -/
theorem buildPrompt_branches (q t : String) :
    buildPrompt "search" q t =
      (searchSystemInstruction,
       "--- CONTEXT START ---\n" ++ t ++ "\n--- CONTEXT END ---\n\n" ++
         "User Question: " ++ q) ∧
    (∀ i : String, i ≠ "search" →
      buildPrompt i q t = (genericSystemInstruction, q)) := by
  refine ⟨rfl, ?_⟩
  intro i hi
  simp [buildPrompt, hi]

/-- Witness for the amended claim C4: the `search` branch and the `chitchat`
branch at concrete inputs. -/
theorem buildPrompt_branches_witness :
    buildPrompt "search" "q1" "ev1" =
      (searchSystemInstruction,
       "--- CONTEXT START ---\n" ++ "ev1" ++ "\n--- CONTEXT END ---\n\n" ++
         "User Question: " ++ "q1") ∧
    buildPrompt "chitchat" "q1" "ev1" = (genericSystemInstruction, "q1") :=
  ⟨(buildPrompt_branches "q1" "ev1").1,
   (buildPrompt_branches "q1" "ev1").2 "chitchat" (by decide)⟩

/-! ## Claim C7 — classification failure fallback -/

/-- Claim C7: whenever the classification call fails in transport, returns a
non-2xx status, or returns a body that does not validate as `QueryAnalysis`
(malformed JSON or schema violation), `analyze_query` returns the fallback
analysis — intent `chitchat`, empty `key_entities` — and, being a total
function of the response, never propagates an error. -/
theorem analyze_query_fallback (validateQA : String → Option QueryAnalysis)
    (resp : ChatResponse)
    (hfail : resp = .transportFailure ∨
      (∃ s c, resp = .response s c ∧ ¬(200 ≤ s ∧ s < 300)) ∨
      (∃ s c, resp = .response s c ∧ validateQA (c.getD "\x7b\x7d") = none)) :
    analyze_query validateQA resp = fallbackAnalysis ∧
    (analyze_query validateQA resp).intent = IntentType.chitchat ∧
    (analyze_query validateQA resp).key_entities = [] := by
  have hres : analyze_query validateQA resp = fallbackAnalysis := by
    rcases hfail with h | ⟨s, c, rfl, hs⟩ | ⟨s, c, rfl, hv⟩
    · rw [h]; rfl
    · simp [analyze_query, hs]
    · by_cases hs : 200 ≤ s ∧ s < 300
      · simp [analyze_query, hs, hv]
      · simp [analyze_query, hs]
  exact ⟨hres, by rw [hres]; rfl, by rw [hres]; rfl⟩

/-- Witness for claim C7: a transport failure, a 500 status, and a 200 status
with an unparseable body all yield the chitchat fallback. -/
theorem analyze_query_fallback_witness :
    analyze_query (fun _ => none) ChatResponse.transportFailure =
        fallbackAnalysis ∧
    (analyze_query (fun _ => none) ChatResponse.transportFailure).intent =
        IntentType.chitchat ∧
    (analyze_query (fun _ => none) ChatResponse.transportFailure).key_entities =
        [] :=
  analyze_query_fallback (fun _ => none) ChatResponse.transportFailure
    (Or.inl rfl)

/-! ## Claim C8 — stream-line processing -/

/-- A parsed stream unit whose `done` flag is set. -/
def isDoneLine : StreamLine → Bool
  | .unit _ d => d
  | _ => false

/-- The text increment a stream line contributes when the loop reaches it: the
token of a parsed unit when non-empty. -/
def lineToken : StreamLine → Option String
  | .unit t _ => if t ≠ "" then some t else none
  | _ => none

/-- Claim C8 counterexample: a parseable unit that carries the non-empty
increment `"tail"` and simultaneously signals completion is NOT yielded (the
`done` check precedes the token check), while the claim as stated requires
every parseable unit carrying a non-empty increment to be yielded. -/
theorem processStream_done_with_token :
    processStream [StreamLine.unit "tail" true] = [] ∧
    ([] : List String) ≠ ["tail"] := by
  refine ⟨rfl, by decide⟩

/-- Claim C8 amended: the yielded sequence consists of exactly the non-empty
tokens of the parseable units strictly before the first completion-signalling
unit, in input order — a completion unit ends the sequence without yielding
its own increment, malformed and blank lines are skipped, and end-of-stream
without a completion signal also ends the sequence.  In particular three valid
increments followed by a completion signal yield exactly those three
increments in order, and a malformed line between two valid increments is
skipped. -/
theorem processStream_characterization :
    (∀ lines : List StreamLine,
      processStream lines =
        (lines.takeWhile (fun l => !isDoneLine l)).filterMap lineToken) ∧
    processStream
        [StreamLine.unit "Hel" false, StreamLine.unit "lo" false,
         StreamLine.unit " world" false, StreamLine.unit "" true] =
      ["Hel", "lo", " world"] ∧
    processStream
        [StreamLine.unit "A" false, StreamLine.malformed,
         StreamLine.unit "B" false] = ["A", "B"] := by
  refine ⟨?_, by decide, by decide⟩
  intro lines
  induction lines with
  | nil => rfl
  | cons l rest ih =>
    cases l with
    | blank =>
      simpa [processStream, isDoneLine, lineToken] using ih
    | malformed =>
      simpa [processStream, isDoneLine, lineToken] using ih
    | unit t d =>
      cases d with
      | true => simp [processStream, isDoneLine]
      | false =>
        by_cases ht : t = ""
        · simp [processStream, isDoneLine, lineToken, ht, ih]
        · simp [processStream, isDoneLine, lineToken, ht, ih]

/-! ## Claim C1 — image turns and the missing VISION_QA member -/

/-- Claim C1 (code-bug evidence): `IntentType` (reasoning.py lines 9-16) has no
member named `VISION_QA`, so the attribute access `IntentType.VISION_QA` in
`chat_stream` (main.py line 71 for image turns, and line 80 for every turn)
raises `AttributeError`; the `except` arm converts it to an HTTP 500.  Hence
EVERY `/chat/stream` request — in particular every turn carrying an image —
ends in an HTTP 500, independently of the classifier and the tools: the turn
never reaches tool dispatch or synthesis, and no intent is ever forced to
`vision_qa`. -/
theorem chat_stream_always_http_500 :
    intentTypeAttr "VISION_QA" = none ∧
    (∀ i : IntentType, i.value ≠ "vision_qa") ∧
    ∀ (q : String) (hist : List (String × String)) (img : Option String)
      (analyzeFn : String → List (String × String) → QueryAnalysis)
      (searchFn : String → String) (visionFn : String → String → String),
      chat_stream q hist img analyzeFn searchFn visionFn =
        ChatOutcome.httpError 500 := by
  refine ⟨rfl, by intro i; cases i <;> decide, ?_⟩
  intro q hist img analyzeFn searchFn visionFn
  have hv : intentTypeAttr "VISION_QA" = none := rfl
  unfold chat_stream
  rw [hv]
  cases hpt : pyTruthy img <;> simp [hpt]

/-! ## Claim C2 — embedding/id alignment in `add_documents` -/

/-- The embedding model of the C2 failing input: it fails (returns the empty
vector) on the chunk `"ab"` and succeeds with the vector `[7]` on the chunk
`"cd"`. -/
def embedMisaligned : List Char → List Int :=
  fun t => if t = "cd".toList then [7] else []

/-- Claim C2 (code-bug evidence): ingesting the two documents `"ab"` and
`"cd"` when the embedding of `"ab"` fails and the embedding of `"cd"`
succeeds stores exactly one record — id `doc_0_chunk_0`, text `"ab"`, vector
`[7]`.  That is: the chunk whose embedding failed is upserted anyway, it is
stored with the OTHER chunk's embedding (`[7] = embed "cd" ≠ [] = embed
"ab"`), and the successfully-embedded chunk `"cd"` is dropped — because the
code filters failed vectors out of `embeddings` but not out of `all_ids`,
`all_chunks`, `all_metadatas`, and then upserts position-wise slices. -/
theorem add_documents_misaligned_upsert :
    add_documents 5 0 ["ab".toList, "cd".toList]
        [[("source", "A")], [("source", "B")]] embedMisaligned =
      some [{ id := "doc_0_chunk_0", doc := "ab".toList, emb := [7],
              meta := [("source", "A")] }] ∧
    embedMisaligned "ab".toList = [] ∧
    embedMisaligned "cd".toList = [7] := by
  refine ⟨by decide, by decide, by decide⟩

/-! ## Claim C5 — ingest with zero successful embeddings -/

/-- Claim C5 counterexample: when every embedding fails, the `/ingest` endpoint
still answers `"success"` — no failure is reported to the caller (the error is
only printed to the server log); the index is indeed left untouched. -/
theorem ingest_zero_embeddings_reports_success :
    ingest_document 5 0 "ab".toList [] (fun _ => []) = some "success" ∧
    add_documents 5 0 ["ab".toList] [[]] (fun _ => []) = some [] := by
  refine ⟨by decide, by decide⟩

/-- Claim C5 amended: if zero chunks embed successfully, `add_documents`
returns before calling `upsert`, leaving the index unchanged, but the
operation completes normally and the `/ingest` endpoint therefore still
reports success to the caller (the failure is only logged server-side). -/
theorem add_documents_zero_embeddings :
    (∀ (fuel count : Nat) (docs : List (List Char)) (metas : List Meta)
       (embed : List Char → List Int) (cpd : List (List (List Char))),
       chunkDocs fuel docs = some cpd →
       keepEmbeddings embed ((buildTriples count metas cpd).map fun t => t.1) =
         [] →
       add_documents fuel count docs metas embed = some []) ∧
    (∀ (fuel count : Nat) (text : List Char) (metadata : Meta)
       (embed : List Char → List Int) (cs : List (List Char)),
       chunk_text fuel text 1000 100 = some cs →
       keepEmbeddings embed
           ((buildTriples count [metadata] [cs]).map fun t => t.1) = [] →
       ingest_document fuel count text metadata embed = some "success") := by
  constructor
  · intro fuel count docs metas embed cpd hchunk hemb
    simp [add_documents, hchunk, hemb]
  · intro fuel count text metadata embed cs hchunk hemb
    have hmap : chunkDocs fuel [text] = some [cs] := by
      simp [chunkDocs, hchunk]
    simp [ingest_document, add_documents, hmap, hemb]

/-- Witness for the amended claim C5 at a concrete input on which all
embeddings fail. -/
theorem add_documents_zero_embeddings_witness :
    add_documents 5 0 ["xy".toList] [[]] (fun _ => []) = some [] ∧
    ingest_document 5 0 "xy".toList [] (fun _ => []) = some "success" :=
  ⟨add_documents_zero_embeddings.1 5 0 ["xy".toList] [[]] (fun _ => [])
      [["xy".toList]] (by decide) (by decide),
   add_documents_zero_embeddings.2 5 0 "xy".toList [] (fun _ => [])
      ["xy".toList] (by decide) (by decide)⟩

/-! ## Claim C3 — chunking termination -/

/-- Unfolding of one `while` iteration of the chunking loop. -/
theorem chunkLoop_succ (text : List Char) (cs ov : Int) (fuel : Nat)
    (start : Int) (acc : List (List Char)) :
    chunkLoop text cs ov (fuel + 1) start acc =
      if start < (text.length : Int) then
        chunkLoop text cs ov fuel (chunkStep text cs ov start).1
          (if (chunkStep text cs ov start).2 = [] then acc
           else acc ++ [(chunkStep text cs ov start).2])
      else some acc := rfl

/-- The C3 failing input for `chunk_size = 2`, `overlap = 1`: the window
`[0, 2)` backs off to the space at index 1, the chunk `"a"` is emitted, and
the next cursor is `1 - 1 = 0` — the loop state repeats forever. -/
def loopText : List Char := "a bcd".toList

/-- On `loopText` with `chunk_size = 2`, `overlap = 1`, one loop iteration
from cursor `0` returns to cursor `0`, appending the chunk `"a"`. -/
theorem loopText_step (n : Nat) (acc : List (List Char)) :
    chunkLoop loopText 2 1 (n + 1) 0 acc =
      chunkLoop loopText 2 1 n 0 (acc ++ [['a']]) := rfl

/-- The chunking loop on `loopText` never terminates, whatever the fuel. -/
theorem loopText_no_fuel_suffices (fuel : Nat) :
    ∀ acc : List (List Char), chunkLoop loopText 2 1 fuel 0 acc = none := by
  induction fuel with
  | zero => intro acc; rfl
  | succ n ih =>
    intro acc
    rw [loopText_step]
    exact ih _

/-- The C3 failing input for the shipped default parameters
`chunk_size = 1000`, `overlap = 100`: a space at index 100, no other space in
the first window, and total length 1001.  The window `[0, 1000)` backs off to
index 100, and the next cursor is `100 - 100 = 0`: the state repeats. -/
def loopTextDefault : List Char :=
  List.replicate 100 'x' ++ ' ' :: List.replicate 900 'y'

set_option maxHeartbeats 4000000 in
/-- On `loopTextDefault` with the default parameters, the loop body maps
cursor `0` back to cursor `0` and emits the first 100 characters: the window
`[0, 1000)` ends inside the text, `rfind` backs the end off to the space at
index 100, and the next cursor is `100 - 100 = 0`. -/
theorem loopTextDefault_chunkStep :
    chunkStep loopTextDefault 1000 100 0 = (0, List.replicate 100 'x') := by
  decide

/-- On `loopTextDefault` with the default parameters, one loop iteration from
cursor `0` returns to cursor `0`, appending the first 100 characters. -/
theorem loopTextDefault_step (n : Nat) (acc : List (List Char)) :
    chunkLoop loopTextDefault 1000 100 (n + 1) 0 acc =
      chunkLoop loopTextDefault 1000 100 n 0 (acc ++ [List.replicate 100 'x']) := by
  rw [chunkLoop_succ, loopTextDefault_chunkStep]
  have hlen : (0 : Int) < (loopTextDefault.length : Int) := by decide
  rw [if_pos hlen]
  simp

/-- The chunking loop on `loopTextDefault` never terminates either. -/
theorem loopTextDefault_no_fuel_suffices (fuel : Nat) :
    ∀ acc : List (List Char),
      chunkLoop loopTextDefault 1000 100 fuel 0 acc = none := by
  induction fuel with
  | zero => intro acc; rfl
  | succ n ih =>
    intro acc
    rw [loopTextDefault_step]
    exact ih _

/-- Claim C3 (code-bug evidence): the chunking function does NOT terminate for
every positive `chunk_size` and `overlap < chunk_size`.  On `"a bcd"` with
`chunk_size = 2 > 0` and `overlap = 1 < 2` the loop revisits cursor `0`
forever (the claim's bound would be `ceil(5 / 1) = 5` steps), and the same
happens with the shipped defaults `chunk_size = 1000`, `overlap = 100` on a
1001-character text whose only space in the first window sits at index 100:
the `start >= end` progress guard only catches `end - overlap ≥ end`, not the
back-off regression `last_space - overlap ≤ start`. -/
theorem chunk_text_nonterminating :
    ((0 : Int) < 2 ∧ (1 : Int) < 2 ∧
      ∀ fuel : Nat, chunk_text fuel "a bcd".toList 2 1 = none) ∧
    ((0 : Int) < 1000 ∧ (100 : Int) < 1000 ∧
      ∀ fuel : Nat, chunk_text fuel loopTextDefault 1000 100 = none) := by
  refine ⟨⟨by decide, by decide, ?_⟩, ⟨by decide, by decide, ?_⟩⟩
  · intro fuel
    have h : chunk_text fuel "a bcd".toList 2 1 =
        chunkLoop loopText 2 1 fuel 0 [] := rfl
    rw [h]
    exact loopText_no_fuel_suffices fuel []
  · intro fuel
    have h : chunk_text fuel loopTextDefault 1000 100 =
        chunkLoop loopTextDefault 1000 100 fuel 0 [] := by
      have hne : loopTextDefault ≠ [] := by decide
      have hcoll : collapseNewlines loopTextDefault = loopTextDefault := by decide
      rw [chunk_text, if_neg hne, hcoll]
    rw [h]
    exact loopTextDefault_no_fuel_suffices fuel []

/-! ## Claim C6 — chunking with the default parameters -/

/-- `pySliceIdx` for in-range endpoints: index `0` adjusts to `0`. -/
theorem pySliceIdx_zero (n : Nat) : pySliceIdx n 0 = 0 := by
  unfold pySliceIdx
  split <;> omega

/-- `pySliceIdx` for an endpoint at or beyond the length adjusts to the
length. -/
theorem pySliceIdx_ge (n : Nat) (b : Int) (hb : (n : Int) ≤ b) :
    pySliceIdx n b = n := by
  unfold pySliceIdx
  split <;> omega

/-- A slice `s[0:b]` with `b` at or beyond the length is the whole list. -/
theorem pySlice_zero_of_le (s : List Char) (b : Int)
    (hb : (s.length : Int) ≤ b) : pySlice s 0 b = s := by
  rw [pySlice, pySliceIdx_zero, pySliceIdx_ge _ _ hb, List.take_length,
    List.drop_zero]

/-- Collapsing newlines never empties a non-empty text. -/
theorem collapseNewlines_ne_nil : ∀ l : List Char, l ≠ [] →
    collapseNewlines l ≠ [] := by
  intro l
  induction l with
  | nil => intro h; exact absurd rfl h
  | cons c rest ih =>
    intro _
    cases rest with
    | nil => simp [collapseNewlines]
    | cons c2 r2 =>
      simp only [collapseNewlines]
      split
      · exact ih (by simp)
      · simp

/-- For a text of length at most `900`, the first window of the default-
parameter loop covers the whole text: the end stays at `1000`, the chunk is
the whole stripped text, and the next cursor is `900`. -/
theorem chunkStep_short (norm : List Char) (hlen : norm.length ≤ 900) :
    chunkStep norm 1000 100 0 = (900, pyStrip norm) := by
  simp only [chunkStep]
  have h1 : ¬((0 : Int) + 1000 < (norm.length : Int)) := by omega
  rw [if_neg h1, pySlice_zero_of_le norm (0 + 1000) (by omega)]
  norm_num

/-- Loop invariant: every chunk the loop ever returns is non-empty (chunks are
appended only under the `if chunk:` guard). -/
theorem chunkLoop_mem_ne_nil : ∀ (fuel : Nat) (text : List Char)
    (cs ov start : Int) (acc res : List (List Char)),
    (∀ c ∈ acc, c ≠ []) → chunkLoop text cs ov fuel start acc = some res →
    ∀ c ∈ res, c ≠ [] := by
  intro fuel
  induction fuel with
  | zero =>
    intro text cs ov start acc res _ h
    exact absurd h (by simp [chunkLoop])
  | succ n ih =>
    intro text cs ov start acc res hacc h
    rw [chunkLoop_succ] at h
    split at h
    · refine ih text cs ov _ _ res ?_ h
      intro c hc
      split at hc
      · exact hacc c hc
      · rcases List.mem_append.mp hc with hmem | hmem
        · exact hacc c hmem
        · rw [List.mem_singleton.mp hmem]
          assumption
    · cases h
      exact hacc

/-- Claim C6 amended: with the default parameters `chunk_size = 1000`,
`overlap = 100`, every input whose newline-collapsed form has length at most
`900` and strips to a non-empty text produces exactly one chunk — the
stripped, newline-collapsed input; moreover, for every input (and any
parameters) no produced chunk is empty, and empty input produces zero
chunks.  (The original claim fails for whitespace-only inputs, for inputs
containing consecutive newlines, and for inputs of length 901-999, see the
counterexample.) -/
theorem chunk_text_default_short_input :
    (∀ (text : List Char) (fuel : Nat),
      (collapseNewlines text).length ≤ 900 →
      pyStrip (collapseNewlines text) ≠ [] →
      2 ≤ fuel →
      chunk_text fuel text 1000 100 =
        some [pyStrip (collapseNewlines text)]) ∧
    (∀ (fuel : Nat) (text : List Char) (cs ov : Int)
       (res : List (List Char)),
      chunk_text fuel text cs ov = some res → ∀ c ∈ res, c ≠ []) ∧
    (∀ (fuel : Nat) (cs ov : Int), chunk_text fuel [] cs ov = some []) := by
  refine ⟨?_, ?_, ?_⟩
  · intro text fuel hlen hne hf
    obtain ⟨f, rfl⟩ : ∃ f, fuel = f + 2 := ⟨fuel - 2, by omega⟩
    have htext : text ≠ [] := by
      intro h
      rw [h] at hne
      exact hne rfl
    rw [chunk_text, if_neg htext]
    have hn : collapseNewlines text ≠ [] := collapseNewlines_ne_nil text htext
    have hpos : (0 : Int) < ((collapseNewlines text).length : Int) := by
      have := List.length_pos.mpr hn
      omega
    show chunkLoop (collapseNewlines text) 1000 100 (f + 1 + 1) 0 [] = _
    rw [chunkLoop_succ, if_pos hpos, chunkStep_short _ hlen]
    simp only [List.nil_append]
    rw [if_neg hne, chunkLoop_succ, if_neg (by omega :
      ¬((900 : Int) < ((collapseNewlines text).length : Int)))]
  · intro fuel text cs ov res h
    by_cases htext : text = []
    · rw [htext, chunk_text, if_pos rfl] at h
      cases h
      intro c hc
      exact absurd hc (List.not_mem_nil c)
    · rw [chunk_text, if_neg htext] at h
      exact chunkLoop_mem_ne_nil fuel _ cs ov 0 [] res (by simp) h
  · intro fuel cs ov
    rfl

/-- Witness for the amended claim C6 at concrete inputs. -/
theorem chunk_text_default_short_input_witness :
    chunk_text 2 "hi".toList 1000 100 =
      some [pyStrip (collapseNewlines "hi".toList)] ∧
    (∀ c ∈ [List.replicate 950 'a', List.replicate 50 'a'], c ≠ []) ∧
    chunk_text 0 [] 1000 100 = some [] :=
  ⟨chunk_text_default_short_input.1 "hi".toList 2 (by decide) (by decide)
      (by decide),
   chunk_text_default_short_input.2.1 10 (List.replicate 950 'a') 1000 100
      [List.replicate 950 'a', List.replicate 50 'a'] (by decide),
   chunk_text_default_short_input.2.2 0 1000 100⟩

/-- Claim C6 counterexample: three inputs shorter than 1000 characters on
which the claim fails.  A single space yields zero chunks, not one; the input
`"a\n\nb"` yields the chunk `"a\nb"`, which differs from the stripped input
`"a\n\nb"` (chunks are cut from the newline-collapsed text); and 950
repetitions of `a` yield two chunks (after the first window the cursor is
`900 < 950`, so a second window runs), not one. -/
theorem chunk_text_default_counterexamples :
    chunk_text 10 " ".toList 1000 100 = some [] ∧
    chunk_text 10 "a\n\nb".toList 1000 100 = some ["a\nb".toList] ∧
    "a\nb".toList ≠ pyStrip "a\n\nb".toList ∧
    chunk_text 10 (List.replicate 950 'a') 1000 100 =
      some [List.replicate 950 'a', List.replicate 50 'a'] := by
  refine ⟨by decide, by decide, by decide, by decide⟩

/-! ## Claim C10 — metadatas shorter than documents -/

/-- The four-way zip is empty when its second list is. -/
theorem zipEntries_nil₂ (a : List String) (c : List (List Int))
    (d : List Meta) : zipEntries a [] c d = [] := by
  cases a <;> rfl

/-- The four-way zip is empty when its third list is. -/
theorem zipEntries_nil₃ (a : List String) (b : List (List Char))
    (d : List Meta) : zipEntries a b [] d = [] := by
  cases a <;> cases b <;> rfl

/-- The four-way zip is empty when its fourth list is. -/
theorem zipEntries_nil₄ (a : List String) (b : List (List Char))
    (c : List (List Int)) : zipEntries a b c [] = [] := by
  cases a <;> cases b <;> cases c <;> rfl

/-- Prefix/suffix split of the four-way zip. -/
theorem zipEntries_split (k : Nat) : ∀ (a : List String) (b : List (List Char))
    (c : List (List Int)) (d : List Meta),
    zipEntries (a.take k) (b.take k) (c.take k) (d.take k) ++
      zipEntries (a.drop k) (b.drop k) (c.drop k) (d.drop k) =
    zipEntries a b c d := by
  induction k with
  | zero =>
    intro a b c d
    rw [List.take_zero, List.take_zero, List.take_zero, List.take_zero,
      List.drop_zero, List.drop_zero, List.drop_zero, List.drop_zero]
    rfl
  | succ k ih =>
    intro a b c d
    cases a with
    | nil => rfl
    | cons x xs =>
      cases b with
      | nil => simp [zipEntries_nil₂]
      | cons y ys =>
        cases c with
        | nil => simp [zipEntries_nil₃]
        | cons z zs =>
          cases d with
          | nil => simp [zipEntries_nil₄]
          | cons w ws =>
            simp only [List.take_succ_cons, List.drop_succ_cons, zipEntries,
              List.cons_append]
            rw [ih]

/-- Unfolding of one pass of the upsert batch loop. -/
theorem upsertLoopAux_succ (ids : List String) (chunks : List (List Char))
    (embs : List (List Int)) (metas : List Meta) (total rem i : Nat) :
    upsertLoopAux ids chunks embs metas total (rem + 1) i =
      if i < total then
        zipEntries (sliceN ids i (min (i + 100) total))
            (sliceN chunks i (min (i + 100) total))
            (sliceN embs i (min (i + 100) total))
            (sliceN metas i (min (i + 100) total))
          ++ upsertLoopAux ids chunks embs metas total rem (i + 100)
      else [] := rfl

/-- A batch slice is the `min (i+100) total - i`-prefix of the suffix of the
`total`-prefix. -/
theorem sliceN_as_take {α : Type} (l : List α) (i total : Nat)
    (hle : i ≤ total) :
    sliceN l i (min (i + 100) total) =
      ((l.take total).drop i).take (min (i + 100) total - i) := by
  rw [sliceN, List.drop_take, List.take_take]
  congr 1
  omega

/-- Dropping past the batch端 equals dropping `100` on lists no longer than
`total - i`. -/
theorem drop_min_batch {α : Type} (X : List α) (i total : Nat)
    (hX : X.length ≤ total - i) :
    X.drop 100 = X.drop (min (i + 100) total - i) := by
  rcases le_or_lt (i + 100) total with h | h
  · rw [min_eq_left h]
    congr 1
    omega
  · have h1 : X.drop 100 = [] := List.drop_eq_nil_of_le (by omega)
    have h2 : X.drop (min (i + 100) total - i) = [] :=
      List.drop_eq_nil_of_le (by omega)
    rw [h1, h2]

/-- The concatenated effect of the batch loop is the four-way zip of the
`total`-prefixes of its argument lists. -/
theorem upsertLoopAux_eq (ids : List String) (chunks : List (List Char))
    (embs : List (List Int)) (metas : List Meta) (total : Nat) :
    ∀ (rem i : Nat), total ≤ i + 100 * rem →
      upsertLoopAux ids chunks embs metas total rem i =
        zipEntries ((ids.take total).drop i) ((chunks.take total).drop i)
          ((embs.take total).drop i) ((metas.take total).drop i) := by
  intro rem
  induction rem with
  | zero =>
    intro i hi
    have h1 : (ids.take total).drop i = [] :=
      List.drop_eq_nil_of_le (by rw [List.length_take]; omega)
    show ([] : List Entry) = _
    rw [h1]
    rfl
  | succ rem ih =>
    intro i hi
    rw [upsertLoopAux_succ]
    by_cases hlt : i < total
    · rw [if_pos hlt, ih (i + 100) (by omega)]
      rw [sliceN_as_take ids i total (by omega),
        sliceN_as_take chunks i total (by omega),
        sliceN_as_take embs i total (by omega),
        sliceN_as_take metas i total (by omega)]
      have hdd : ∀ {α : Type} (l : List α),
          (l.take total).drop (i + 100) = ((l.take total).drop i).drop 100 := by
        intro α l
        rw [List.drop_drop]
      rw [hdd ids, hdd chunks, hdd embs, hdd metas]
      have hlen : ∀ {α : Type} (l : List α),
          ((l.take total).drop i).length ≤ total - i := by
        intro α l
        rw [List.length_drop, List.length_take]
        omega
      rw [drop_min_batch _ i total (hlen ids),
        drop_min_batch _ i total (hlen chunks),
        drop_min_batch _ i total (hlen embs),
        drop_min_batch _ i total (hlen metas)]
      exact zipEntries_split _ _ _ _ _
    · rw [if_neg hlt]
      have h1 : (ids.take total).drop i = [] :=
        List.drop_eq_nil_of_le (by rw [List.length_take]; omega)
      rw [h1]
      rfl

/-- The batch loop upserts exactly the zip of the `total`-prefixes. -/
theorem upsertBatched_eq (ids : List String) (chunks : List (List Char))
    (embs : List (List Int)) (metas : List Meta) (total : Nat) :
    upsertBatched ids chunks embs metas total =
      zipEntries (ids.take total) (chunks.take total) (embs.take total)
        (metas.take total) := by
  have h := upsertLoopAux_eq ids chunks embs metas total total 0 (by omega)
  simpa using h

/-- When the embedding model never fails, the embedding loop keeps every
vector. -/
theorem keepEmbeddings_all (embed : List Char → List Int)
    (chunks : List (List Char)) (he : ∀ t, embed t ≠ []) :
    keepEmbeddings embed chunks = chunks.map embed := by
  rw [keepEmbeddings, List.filter_eq_self]
  intro a ha
  rcases List.mem_map.mp ha with ⟨t, _, rfl⟩
  simpa using he t

/-- Zipping the three projections of the triple list (with each chunk's own
embedding) recovers one record per triple. -/
theorem zipEntries_of_triples (embed : List Char → List Int) :
    ∀ tr : List (List Char × Meta × String),
    zipEntries (tr.map fun t => t.2.2) (tr.map fun t => t.1)
        (tr.map fun t => embed t.1) (tr.map fun t => t.2.1) =
      tr.map fun t =>
        { id := t.2.2, doc := t.1, emb := embed t.1, meta := t.2.1 } := by
  intro tr
  induction tr with
  | nil => rfl
  | cons t ts ih => simp [zipEntries, ih]

/-- Modelled from the spec (sections 4.4 and the C10 sources): the intended
ingest result — every chunk of every document is stored, each with the
embedding computed from its own text, under id
`doc_<count + idx>_chunk_<chunk_i>`, and a document with no corresponding
metadata entry contributes the empty mapping to each of its chunks. -/
def add_documents_spec (count : Nat) (metadatas : List Meta)
    (chunksPerDoc : List (List (List Char)))
    (embed : List Char → List Int) : List Entry :=
  chunksPerDoc.enum.flatMap fun di =>
    di.2.enum.map fun ci =>
      { id := mkId (count + di.1) ci.1, doc := ci.2, emb := embed ci.2,
        meta := if di.1 < metadatas.length then metadatas.getD di.1 []
                else [] }

/-- `map` distributes over `flatMap`. -/
theorem map_flatMap' {α β γ : Type} (l : List α) (f : α → List β)
    (g : β → γ) : (l.flatMap f).map g = l.flatMap fun a => (f a).map g := by
  induction l with
  | nil => rfl
  | cons x xs ih => simp [ih]

/-- The spec-side ingest result is one record per source triple. -/
theorem add_documents_spec_eq_triples (count : Nat) (metas : List Meta)
    (cpd : List (List (List Char))) (embed : List Char → List Int) :
    add_documents_spec count metas cpd embed =
      (buildTriples count metas cpd).map fun t =>
        { id := t.2.2, doc := t.1, emb := embed t.1, meta := t.2.1 } := by
  rw [add_documents_spec, buildTriples, map_flatMap']
  congr 1
  funext di
  rw [List.map_map]
  rfl

/-- Claim C10: calling `add_documents` with a `metadatas` list shorter than
`documents` does not fail — assuming the embedding model succeeds on every
chunk (so that claim C2's misalignment bug does not interfere) and the
chunking completes, every chunk of every document is upserted with its own
embedding and its id, and every chunk derived from a document with no
corresponding metadata entry receives the empty metadata mapping: the result
equals `add_documents_spec`, whose metadata lookup defaults to `[]` beyond
the end of `metadatas`. -/
theorem add_documents_short_metadatas (fuel count : Nat)
    (docs : List (List Char)) (metas : List Meta)
    (embed : List Char → List Int) (cpd : List (List (List Char)))
    (_hmeta : metas.length < docs.length)
    (hembed : ∀ t, embed t ≠ [])
    (hchunk : chunkDocs fuel docs = some cpd) :
    add_documents fuel count docs metas embed =
      some (add_documents_spec count metas cpd embed) := by
  rw [add_documents, hchunk]
  simp only
  rw [keepEmbeddings_all embed _ hembed]
  rw [add_documents_spec_eq_triples]
  by_cases hnil : ((buildTriples count metas cpd).map fun t => t.1).map embed = []
  · rw [if_pos hnil]
    have h1 : buildTriples count metas cpd = [] := by
      have := List.map_eq_nil_iff.mp (List.map_eq_nil_iff.mp hnil)
      exact this
    rw [h1]
    rfl
  · rw [if_neg hnil]
    rw [upsertBatched_eq]
    have hlen2 : (((buildTriples count metas cpd).map fun t => t.1).map embed).length =
        (buildTriples count metas cpd).length := by
      rw [List.length_map, List.length_map]
    rw [hlen2]
    rw [List.take_of_length_le (by rw [List.length_map]),
      List.take_of_length_le (by rw [List.length_map]),
      List.take_of_length_le (by rw [List.length_map, List.length_map]),
      List.take_of_length_le (by rw [List.length_map])]
    have hmm : ((buildTriples count metas cpd).map fun t => t.1).map embed =
        (buildTriples count metas cpd).map fun t => embed t.1 := by
      rw [List.map_map]
      rfl
    rw [hmm, zipEntries_of_triples]

/-- Witness for claim C10: two one-chunk documents, one metadata entry, an
embedding model that always answers `[3]`. -/
theorem add_documents_short_metadatas_witness :
    add_documents 5 0 ["ab".toList, "cd".toList] [[("source", "A")]]
        (fun _ => [3]) =
      some (add_documents_spec 0 [[("source", "A")]]
        [["ab".toList], ["cd".toList]] (fun _ => [3])) :=
  add_documents_short_metadatas 5 0 ["ab".toList, "cd".toList]
    [[("source", "A")]] (fun _ => [3]) [["ab".toList], ["cd".toList]]
    (by decide) (by intro t; simp) (by decide)
